import Mathlib

/- Verification of the sheet formula-evaluation core of this repository:
the built-in formula API and `evaluateColumns` (the unnamed module exporting
`FormulaColumn`, `ResultRow`, `evaluateFormula`, `evaluateColumns`), and the
sort comparator `compareColumnValues` of `SheetComponent.tsx`. -/

namespace Potluck

/-- A document-derived highlight record. The `Snippet` type is declared in
`primitives`, outside the provided sources; modelled from the spec:
`{ type: string, span: [start, end] }`, spans being half-open character
offsets into the document. -/
structure Snippet where
  type : String
  span : Nat × Nat
deriving DecidableEq

/-- A value of the formula language: a JavaScript value as far as the
evaluator inspects it — `isArray` distinguishes arrays, `FILTER` uses
truthiness, everything else is carried opaquely. Numbers are modelled as
integers. -/
inductive FVal
  | undef
  | null
  | bool (b : Bool)
  | num (n : Int)
  | str (s : String)
  | list (items : List FVal)
  | snippet (s : Snippet)

/-- JavaScript truthiness of an `FVal` (`0`, the empty string, `false`,
`null` and `undefined` are falsy; arrays and objects are truthy). -/
def truthy : FVal → Bool
  | .undef => false
  | .null => false
  | .bool b => b
  | .num n => n != 0
  | .str s => s != ""
  | .list _ => true
  | .snippet _ => true

/-- `VALUES_OF_TYPE` from the `evaluateFormula` API:
`snippets.filter((snippet) => snippet.type === type)`. -/
def VALUES_OF_TYPE (snippets : List Snippet) (type : String) : List Snippet :=
  snippets.filter (fun snippet => snippet.type == type)

/-- CodeMirror `doc.lineAt(pos).number`: the 1-based number of the line
containing position `pos`. A line break belongs to the line it terminates,
so the line number at `pos` is one more than the number of newline
characters strictly before `pos`. -/
def lineNumberAt (doc : List Char) (pos : Nat) : Nat :=
  1 + ((doc.take pos).filter (fun c => c == '\n')).length

/-- `ON_SAME_LINE` from the `evaluateFormula` API: both snippets' spans lie
within a single line each, and that line is the same for both. -/
def ON_SAME_LINE (doc : List Char) (a b : Snippet) : Bool :=
  let lineStartA := lineNumberAt doc a.span.1
  let lineEndA := lineNumberAt doc a.span.2
  let lineStartB := lineNumberAt doc b.span.1
  let lineEndB := lineNumberAt doc b.span.2
  lineStartA == lineEndA && (lineStartB == lineEndB && lineStartA == lineStartB)

/-- `FILTER` from the `evaluateFormula` API. The JavaScript `condition` is
either callable (`isFunction(condition)` holds, modelled as `Sum.inl f`) or
any other value (`Sum.inl` impossible, modelled as `Sum.inr v`); the filter
callback returns `condition(item)` in the first case and `item` itself in
the second, and `Array.prototype.filter` keeps an element exactly when the
callback result is truthy. -/
def FILTER (list : List FVal) (condition : Sum (FVal → FVal) FVal) : List FVal :=
  list.filter (fun item =>
    match condition with
    | Sum.inl f => truthy (f item)
    | Sum.inr _ => truthy item)

/-- `FIRST(list)` from the `evaluateFormula` API: JavaScript `list[0]`,
which is `undefined` when the index is absent. -/
def FIRST (list : List FVal) : FVal :=
  list.getD 0 FVal.undef

/-- `SECOND(list)` from the `evaluateFormula` API: JavaScript `list[1]`,
which is `undefined` when the index is absent. -/
def SECOND (list : List FVal) : FVal :=
  list.getD 1 FVal.undef

/-- `FormulaColumn` of the column evaluator module. -/
structure FormulaColumn where
  name : String
  formula : String
deriving DecidableEq

/-- A result row `{ [column.name]: item }`: a JavaScript object literal with
exactly one key, embedded as that single key together with its value. -/
structure ResultRow where
  name : String
  value : FVal

/-- The body of `evaluateColumns`' loop for one evaluated column: when the
formula result `isArray`, one row per element; otherwise a single row. -/
def rowsOf (column : FormulaColumn) : FVal → List ResultRow
  | .list items => items.map (fun item => { name := column.name, value := item })
  | result => [{ name := column.name, value := result }]

/-- Whether a formula result makes `evaluateColumns` produce at least one
row: any non-array value, or a non-empty array. -/
def producesRows : FVal → Bool
  | .list items => !items.isEmpty
  | _ => true

/-- The loop of `evaluateColumns`, carrying the accumulated `resultRows`.
`evaluateFormula` compiles its source with `new Function` and runs arbitrary
JavaScript; it is modelled by the oracle `ev`, which maps a formula source
to its value (`Except.ok`) or its thrown exception (`Except.error`); the
loop contains no handler, so a thrown exception propagates. -/
def evaluateColumnsAux (ev : String → Except String FVal) :
    List FormulaColumn → List ResultRow → Except String (List ResultRow)
  | [], resultRows => Except.ok resultRows
  | column :: rest, resultRows =>
    if resultRows.length == 0 then
      match ev column.formula with
      | Except.error e => Except.error e
      | Except.ok result =>
        evaluateColumnsAux ev rest (resultRows ++ rowsOf column result)
    else
      evaluateColumnsAux ev rest resultRows

/-- `evaluateColumns(columns, snippets, doc)`, with the formula evaluation
abstracted into the oracle `ev` (which closes over `snippets` and `doc`). -/
def evaluateColumns (ev : String → Except String FVal)
    (columns : List FormulaColumn) : Except String (List ResultRow) :=
  evaluateColumnsAux ev columns []

/-- `SortMethod` of `SheetComponent.tsx`. -/
inductive SortMethod
  | date
  | alphabetical
  | numeric
deriving DecidableEq

/-- The sort direction `"asc" | "desc"`. -/
inductive Direction
  | asc
  | desc
deriving DecidableEq

/-- A JavaScript number as the comparator produces it: an integer, or `NaN`
arising from a failed date or float parse. -/
inductive JSNum
  | fin (n : Int)
  | nan
deriving DecidableEq

/-- JavaScript unary minus on a comparator result (`-NaN` is `NaN`). -/
def JSNum.neg : JSNum → JSNum
  | .fin n => .fin (-n)
  | .nan => .nan

/-- JavaScript `rv === 0` (`NaN === 0` is false; `-0 === 0` is true). -/
def JSNum.isZero : JSNum → Bool
  | .fin n => n == 0
  | .nan => false

/-- Whether a comparator result is negative, i.e. orders its first argument
strictly before its second (`NaN` is not negative). -/
def JSNum.isNeg : JSNum → Bool
  | .fin n => decide (n < 0)
  | .nan => false

/-- JavaScript subtraction of two parse results, either of which may be
`NaN`. -/
def numSub : Option Int → Option Int → JSNum
  | some a, some b => .fin (a - b)
  | _, _ => .nan

/-- A value stored in a row's `data` object: `undefined`, a highlight (whose
display text is extracted before comparing), or any other value. The
payload type `V` abstracts the values fed to the date / float / locale
comparisons. -/
inductive JSValue (V : Type)
  | undef
  | highlight (text : V)
  | plain (v : V)

/-- A row handed to the comparator: its `data` object (JavaScript lookup of
a missing key yields `undefined`), and `some span` exactly when
`isValueRowHighlight(row)` holds. `isValueRowHighlight` and
`getTextForHighlight` live in `utils`, outside the provided sources, and
are modelled from the spec: a highlight-bearing value carries a source span
and is compared via its display text. -/
structure SheetValueRow (V : Type) where
  data : String → JSValue V
  span : Option (Nat × Nat)

/-- The cell-value extraction of `compareColumnValues`:
`isValueRowHighlight(x) ? getTextForHighlight(x) : x`; `none` is JavaScript
`undefined`. -/
def extractValue {V : Type} : JSValue V → Option V
  | .undef => none
  | .highlight text => some text
  | .plain v => some v

/-- The primary comparison of `compareColumnValues` — the value of `rv`
before the direction flip: the `undefined` checks (`a` checked first), then
the comparison selected by `sortMethod` through the parsing oracles
`dateMs` (`new Date(v).getTime()`, `none` for an invalid date), `toNum`
(`parseFloat(v)`, `none` for `NaN`) and `locale`
(`String(a).localeCompare(b)`). -/
def primaryCompare {V : Type} (dateMs toNum : V → Option Int)
    (locale : V → V → Int) : Option V → Option V → SortMethod → JSNum
  | none, none, _ => .fin 0
  | none, some _, _ => .fin 1
  | some _, none, _ => .fin (-1)
  | some av, some bv, sortMethod =>
    match sortMethod with
    | .date => numSub (dateMs av) (dateMs bv)
    | .numeric => numSub (toNum av) (toNum bv)
    | .alphabetical => .fin (locale av bv)

/-- `if (direction === "desc") { rv = -rv; }`. -/
def applyDirection : Direction → JSNum → JSNum
  | .asc, rv => rv
  | .desc, rv => rv.neg

/-- The tie-break expression of `compareColumnValues`: ascending span start
(`a.span[0] - b.span[0]`) when both rows are highlight-bearing, otherwise
0. -/
def tieBreak {V : Type} (a b : SheetValueRow V) : Int :=
  match a.span, b.span with
  | some sa, some sb => (sa.1 : Int) - (sb.1 : Int)
  | _, _ => 0

/-- `compareColumnValues(a, b, columnName, sortMethod, direction)` from
`SheetComponent.tsx`: extract both cell values, compute the primary
comparison `rv`, flip it when descending, and return the tie-break value
when the flipped `rv` is 0. -/
def compareColumnValues {V : Type} (dateMs toNum : V → Option Int)
    (locale : V → V → Int) (a b : SheetValueRow V) (columnName : String)
    (sortMethod : SortMethod) (direction : Direction) : JSNum :=
  let aValue := extractValue (a.data columnName)
  let bValue := extractValue (b.data columnName)
  let rv := applyDirection direction
    (primaryCompare dateMs toNum locale aValue bValue sortMethod)
  if rv.isZero then JSNum.fin (tieBreak a b) else rv

/-- A date-parse oracle for concrete comparator runs: nothing parses. -/
def dateO : String → Option Int := fun _ => none

/-- A float-parse oracle for concrete comparator runs: nothing parses. -/
def numO : String → Option Int := fun _ => none

/-- A locale-comparison oracle for concrete comparator runs: the natural
order on strings. -/
def localeO : String → String → Int := fun s t =>
  if s < t then -1 else if t < s then 1 else 0

/-- A concrete non-highlight row whose every cell holds the string "a". -/
def rowDef : SheetValueRow String :=
  { data := fun _ => JSValue.plain "a", span := none }

/-- A concrete non-highlight row whose every cell is `undefined`. -/
def rowUndef : SheetValueRow String :=
  { data := fun _ => JSValue.undef, span := none }

/-- A formula-evaluation oracle for concrete runs: source "e" evaluates to
the empty array, "u" to `undefined`, "boom" throws, and any other source
evaluates to the number 99. -/
def evConcrete : String → Except String FVal := fun source =>
  if source = "e" then Except.ok (FVal.list [])
  else if source = "u" then Except.ok FVal.undef
  else if source = "boom" then Except.error "SyntaxError"
  else Except.ok (FVal.num 99)

/-- Boolean equality on naturals is symmetric. -/
theorem natBeqComm (a b : Nat) : (a == b) = (b == a) := by
  by_cases h : a = b
  · simp [h]
  · simp [h, Ne.symm h]

/-- C7: for every snippet list and type string, `VALUES_OF_TYPE` returns
exactly the subsequence of the snippets whose `type` field equals the
requested type, preserving the original order: the result is a sublist of
the input, every returned snippet has the requested type, and every snippet
occurs in the result as often as in the input when its type matches and
never otherwise. -/
theorem values_of_type_exact (snippets : List Snippet) (t : String) :
    (VALUES_OF_TYPE snippets t).Sublist snippets ∧
    (∀ s ∈ VALUES_OF_TYPE snippets t, s.type = t) ∧
    (∀ s : Snippet, (VALUES_OF_TYPE snippets t).count s =
      if s.type = t then snippets.count s else 0) := by
  refine ⟨List.filter_sublist _, ?_, ?_⟩
  · intro s hs
    have := List.of_mem_filter hs
    simpa using this
  · intro s
    simp only [VALUES_OF_TYPE]
    induction snippets with
    | nil => simp
    | cons a as ih =>
      by_cases ha : a.type = t <;> by_cases hs : s.type = t <;>
        by_cases hsa : s = a <;> simp_all [List.filter_cons, List.count_cons]

/-- C8: `ON_SAME_LINE` is symmetric — for every document and every pair of
snippets, `ON_SAME_LINE doc a b = ON_SAME_LINE doc b a`. -/
theorem on_same_line_symm (doc : List Char) (a b : Snippet) :
    ON_SAME_LINE doc a b = ON_SAME_LINE doc b a := by
  simp only [ON_SAME_LINE]
  simp only [Bool.and_comm, Bool.and_left_comm, Bool.and_assoc]
  rw [natBeqComm (lineNumberAt doc a.span.1) (lineNumberAt doc b.span.1)]

/-- C9: `FIRST` returns the element at index 0 and `SECOND` the element at
index 1, each yielding `undefined` when that index is absent; in particular
`FIRST []` and `SECOND [1]` are `undefined`, `FIRST [5, 6]` is 5 and
`SECOND [5, 6]` is 6. -/
theorem first_second_spec :
    (∀ l : List FVal, FIRST l = match l with | [] => FVal.undef | x :: _ => x) ∧
    (∀ l : List FVal, SECOND l =
      match l with | _ :: y :: _ => y | _ => FVal.undef) ∧
    FIRST [] = FVal.undef ∧ SECOND [FVal.num 1] = FVal.undef ∧
    FIRST [FVal.num 5, FVal.num 6] = FVal.num 5 ∧
    SECOND [FVal.num 5, FVal.num 6] = FVal.num 6 := by
  refine ⟨?_, ?_, rfl, rfl, rfl, rfl⟩
  · intro l
    cases l <;> rfl
  · intro l
    match l with
    | [] => rfl
    | [_] => rfl
    | _ :: _ :: _ => rfl

/-- C2 counterexample: with the non-callable condition "not a function",
`FILTER` drops the falsy element 0 from `[0, 1]`, so the list is not
returned unchanged. -/
theorem filter_non_callable_counterexample :
    FILTER [FVal.num 0, FVal.num 1] (Sum.inr (FVal.str "not a function")) =
      [FVal.num 1] ∧
    [FVal.num 1] ≠ [FVal.num 0, FVal.num 1] := by
  exact ⟨rfl, by simp⟩

/-- C2 (amended): for every list and every non-callable condition, `FILTER`
keeps exactly the truthy elements of the list, and it returns the list
unchanged precisely when every element of the list is truthy. -/
theorem filter_non_callable_truthy (l : List FVal) (v : FVal) :
    FILTER l (Sum.inr v) = l.filter truthy ∧
    (FILTER l (Sum.inr v) = l ↔ ∀ x ∈ l, truthy x = true) := by
  refine ⟨rfl, ?_⟩
  simp only [FILTER]
  exact List.filter_eq_self

/-- C1 counterexample: comparing a row holding the defined value "a" against
a row holding `undefined` with direction descending returns +1 — the defined
value is ordered after `undefined`, so the comparator does not order the
defined value first regardless of direction. -/
theorem undefined_desc_counterexample :
    compareColumnValues dateO numO localeO rowDef rowUndef "n"
      SortMethod.alphabetical Direction.desc = JSNum.fin 1 ∧
    (JSNum.fin 1).isNeg = false := ⟨rfl, rfl⟩

/-- C1 (amended): when exactly one of the two extracted cell values is
`undefined`, the ascending direction orders the defined value first (the
primary comparison is −1 toward the undefined side), while the descending
direction flips this comparison too, ordering the `undefined` value first;
when both values are `undefined` the primary comparison is 0 (for either
direction, since negating 0 gives 0). -/
theorem undefined_sort_by_direction {V : Type} (dateMs toNum : V → Option Int)
    (locale : V → V → Int) (a b : SheetValueRow V) (columnName : String)
    (sortMethod : SortMethod) (v : V)
    (ha : extractValue (a.data columnName) = some v)
    (hb : extractValue (b.data columnName) = none) :
    compareColumnValues dateMs toNum locale a b columnName sortMethod
      Direction.asc = JSNum.fin (-1) ∧
    compareColumnValues dateMs toNum locale a b columnName sortMethod
      Direction.desc = JSNum.fin 1 ∧
    compareColumnValues dateMs toNum locale b a columnName sortMethod
      Direction.asc = JSNum.fin 1 ∧
    compareColumnValues dateMs toNum locale b a columnName sortMethod
      Direction.desc = JSNum.fin (-1) ∧
    primaryCompare dateMs toNum locale (none : Option V) none sortMethod =
      JSNum.fin 0 := by
  unfold compareColumnValues
  rw [ha, hb]
  simp [primaryCompare, applyDirection, JSNum.neg, JSNum.isZero]

/-- C1 witness: the amended ordering at concrete rows — ascending puts the
defined value first, and with the arguments swapped the descending
comparator returns −1, i.e. puts the `undefined` value first. -/
theorem undefined_sort_by_direction_witness :
    compareColumnValues dateO numO localeO rowDef rowUndef "n"
      SortMethod.alphabetical Direction.asc = JSNum.fin (-1) ∧
    compareColumnValues dateO numO localeO rowUndef rowDef "n"
      SortMethod.alphabetical Direction.desc = JSNum.fin (-1) :=
  ⟨(undefined_sort_by_direction dateO numO localeO rowDef rowUndef "n"
      SortMethod.alphabetical "a" rfl rfl).1,
   (undefined_sort_by_direction dateO numO localeO rowDef rowUndef "n"
      SortMethod.alphabetical "a" rfl rfl).2.2.2.1⟩

/-- C6: `compareColumnValues` returns the tie-break value exactly when the
primary comparison is 0; the tie-break is the ascending source-span start
difference exactly when both rows are themselves highlight-bearing and 0
otherwise; and the direction is applied only to the primary comparison,
never to the tie-break. -/
theorem compare_tie_break {V : Type} (dateMs toNum : V → Option Int)
    (locale : V → V → Int) (a b : SheetValueRow V) (columnName : String)
    (sortMethod : SortMethod) (direction : Direction) :
    compareColumnValues dateMs toNum locale a b columnName sortMethod
        direction =
      if (primaryCompare dateMs toNum locale (extractValue (a.data columnName))
          (extractValue (b.data columnName)) sortMethod).isZero then
        JSNum.fin (match a.span, b.span with
          | some sa, some sb => (sa.1 : Int) - (sb.1 : Int)
          | _, _ => 0)
      else
        applyDirection direction (primaryCompare dateMs toNum locale
          (extractValue (a.data columnName))
          (extractValue (b.data columnName)) sortMethod) := by
  have hz : ∀ (d : Direction) (x : JSNum),
      (applyDirection d x).isZero = x.isZero := by
    intro d x
    cases d <;> cases x <;> simp [applyDirection, JSNum.neg, JSNum.isZero]
  simp only [compareColumnValues, tieBreak]
  rw [hz]

/-- Once `resultRows` is non-empty, the rest of the `evaluateColumns` loop
evaluates no further formula and returns the accumulated rows unchanged. -/
theorem evaluateColumnsAux_of_ne_nil (ev : String → Except String FVal)
    (cols : List FormulaColumn) (acc : List ResultRow) (h : acc ≠ []) :
    evaluateColumnsAux ev cols acc = Except.ok acc := by
  induction cols with
  | nil => rfl
  | cons c rest ih =>
    have hlen : (acc.length == 0) = false := by
      simp [List.length_eq_zero, h]
    simp only [evaluateColumnsAux, hlen]
    simpa using ih

/-- While no rows have been produced yet, a column whose formula evaluates
to the empty array contributes no rows and the loop steps past it. -/
theorem evaluateColumns_cons_empty_list (ev : String → Except String FVal)
    (c : FormulaColumn) (cols : List FormulaColumn)
    (h : ev c.formula = Except.ok (FVal.list [])) :
    evaluateColumns ev (c :: cols) = evaluateColumns ev cols := by
  simp [evaluateColumns, evaluateColumnsAux, h, rowsOf]

/-- A formula result that produces rows yields a non-empty row list. -/
theorem rowsOf_ne_nil (c : FormulaColumn) (v : FVal)
    (h : producesRows v = true) : rowsOf c v ≠ [] := by
  cases v <;> simp_all [rowsOf, producesRows]

/-- Every row built from one column carries that column's name as its single
key. -/
theorem rowsOf_name (c : FormulaColumn) (v : FVal) :
    ∀ r ∈ rowsOf c v, r.name = c.name := by
  intro r hr
  cases v <;> simp_all [rowsOf]
  rcases hr with ⟨item, _, rfl⟩
  rfl

/-- A formula result fails to produce rows exactly when it is the empty
array. -/
theorem producesRows_false_iff (v : FVal) :
    producesRows v = false ↔ v = FVal.list [] := by
  cases v <;> simp [producesRows, List.isEmpty_iff]

/-- When the first column's formula evaluates to a row-producing value, the
loop fills the rows from it and the remaining columns leave them unchanged. -/
theorem evaluateColumns_cons_producing (ev : String → Except String FVal)
    (c : FormulaColumn) (cols : List FormulaColumn) (v : FVal)
    (hv : ev c.formula = Except.ok v) (hp : producesRows v = true) :
    evaluateColumns ev (c :: cols) = Except.ok (rowsOf c v) := by
  simp only [evaluateColumns, evaluateColumnsAux, List.length_nil, hv]
  simpa using evaluateColumnsAux_of_ne_nil ev cols (rowsOf c v)
    (rowsOf_ne_nil c v hp)

/-- C3: at the failing input — a first column whose formula throws —
`evaluateColumns` returns the thrown exception itself: neither
`evaluateFormula` nor `evaluateColumns` contains a handler, so the
exception propagates to the caller, no error value is attached to a result
row, and the second column's formula is never evaluated. -/
theorem evaluate_columns_exception_propagates :
    evaluateColumns evConcrete
      [{ name := "a", formula := "boom" }, { name := "b", formula := "n" }] =
      Except.error "SyntaxError" := rfl

/-- C4 counterexample: with a first column whose formula evaluates to the
empty array and a second column whose formula evaluates to 99,
`evaluateColumns` returns a row built from the second column — that
column's formula is evaluated after all, and the produced row carries the
second column's name rather than the first column's. -/
theorem second_column_evaluated_counterexample :
    evaluateColumns evConcrete
      [{ name := "a", formula := "e" }, { name := "b", formula := "n" }] =
      Except.ok [{ name := "b", value := FVal.num 99 }] ∧
    ({ name := "b", value := FVal.num 99 } : ResultRow).name ≠ "a" :=
  ⟨rfl, by decide⟩

/-- C4 (amended): `evaluateColumns` evaluates columns in order only while no
rows have been produced. The earliest column whose formula yields a
row-producing value — any non-array value, or a non-empty array — fixes the
result (one row per element for an array, a single row for a scalar), and
the columns after it are not evaluated: the result is independent of them.
A column whose formula yields an empty array, however, contributes nothing
and evaluation moves on to the next column. -/
theorem first_producing_column_wins (ev : String → Except String FVal)
    (c : FormulaColumn) (rest rest2 : List FormulaColumn) (v : FVal)
    (hv : ev c.formula = Except.ok v) (hp : producesRows v = true) :
    evaluateColumns ev (c :: rest) = Except.ok (rowsOf c v) ∧
    evaluateColumns ev (c :: rest) = evaluateColumns ev (c :: rest2) ∧
    (∀ c2 : FormulaColumn, ev c2.formula = Except.ok (FVal.list []) →
      evaluateColumns ev (c2 :: rest) = evaluateColumns ev rest) :=
  ⟨evaluateColumns_cons_producing ev c rest v hv hp,
   (evaluateColumns_cons_producing ev c rest v hv hp).trans
     (evaluateColumns_cons_producing ev c rest2 v hv hp).symm,
   fun c2 h2 => evaluateColumns_cons_empty_list ev c2 rest h2⟩

/-- C4 witness: the amended theorem at a concrete evaluator — the first
column's formula evaluates to the scalar 99 and produces the single row, so
the result ignores a later column whose formula would even throw. -/
theorem first_producing_column_wins_witness :
    evaluateColumns evConcrete
      [{ name := "a", formula := "n" }, { name := "b", formula := "boom" }] =
      Except.ok (rowsOf { name := "a", formula := "n" } (FVal.num 99)) :=
  (first_producing_column_wins evConcrete { name := "a", formula := "n" }
    [{ name := "b", formula := "boom" }] [] (FVal.num 99) rfl rfl).1

/-- C5 counterexample: when the first (and only) formula's value is
`undefined`, `evaluateColumns` returns one row holding `undefined` — not
the empty row list the claim requires. -/
theorem undefined_scalar_row_counterexample :
    evaluateColumns evConcrete [{ name := "a", formula := "u" }] =
      Except.ok [{ name := "a", value := FVal.undef }] ∧
    ([{ name := "a", value := FVal.undef }] : List ResultRow) ≠ [] :=
  ⟨rfl, by simp⟩

/-- C5 (amended): `evaluateColumns` returns the empty row list exactly when
every column's formula evaluates, without throwing, to an empty array — in
particular it returns `[]` on the empty column list. (A first formula whose
value is `undefined` instead produces one row holding `undefined`, and a
first formula whose value is an empty array leads to evaluation of the
later columns.) -/
theorem evaluate_columns_empty_iff (ev : String → Except String FVal)
    (columns : List FormulaColumn) :
    (evaluateColumns ev columns = Except.ok [] ↔
      ∀ c ∈ columns, ev c.formula = Except.ok (FVal.list [])) ∧
    evaluateColumns ev [] = Except.ok [] := by
  refine ⟨?_, rfl⟩
  induction columns with
  | nil => simp [evaluateColumns, evaluateColumnsAux]
  | cons c rest ih =>
    cases hv : ev c.formula with
    | error e =>
      constructor
      · intro h
        simp [evaluateColumns, evaluateColumnsAux, hv] at h
      · intro h
        have hc := h c (by simp)
        rw [hv] at hc
        cases hc
    | ok v =>
      by_cases hp : producesRows v = true
      · have hres := evaluateColumns_cons_producing ev c rest v hv hp
        constructor
        · intro h
          rw [hres] at h
          exact absurd (Except.ok.inj h) (rowsOf_ne_nil c v hp)
        · intro h
          have hc := h c (by simp)
          rw [hv] at hc
          have hveq : v = FVal.list [] := Except.ok.inj hc
          rw [hveq] at hp
          simp [producesRows] at hp
      · have hveq : v = FVal.list [] :=
          (producesRows_false_iff v).1 (by simpa using hp)
        subst hveq
        rw [evaluateColumns_cons_empty_list ev c rest hv, ih]
        simp [List.forall_mem_cons, hv]

/-- C10: when `evaluateColumns` returns a non-empty row list, the column
list splits as `pre ++ c :: rest` where every formula in `pre` evaluated to
an empty array, `c` is the earliest column whose formula produced rows (a
non-array value or a non-empty array), the rows are exactly the rows built
from `c`'s result — each a one-key object — all of them carrying `c.name`
as that single key, and the result does not depend on the columns after
`c`: their formulas are never evaluated. -/
theorem rows_single_key_from_first_producing (ev : String → Except String FVal)
    (columns : List FormulaColumn) (rows : List ResultRow)
    (h : evaluateColumns ev columns = Except.ok rows) (hne : rows ≠ []) :
    ∃ pre c rest v, columns = pre ++ c :: rest ∧
      (∀ p ∈ pre, ev p.formula = Except.ok (FVal.list [])) ∧
      ev c.formula = Except.ok v ∧ producesRows v = true ∧
      rows = rowsOf c v ∧
      (∀ r ∈ rows, r.name = c.name) ∧
      (∀ rest2 : List FormulaColumn,
        evaluateColumns ev (pre ++ c :: rest2) = Except.ok rows) := by
  induction columns generalizing rows with
  | nil =>
    exfalso
    apply hne
    have : Except.ok ([] : List ResultRow) = Except.ok rows := h
    exact (Except.ok.inj this).symm
  | cons c rest ih =>
    cases hv : ev c.formula with
    | error e =>
      exfalso
      simp [evaluateColumns, evaluateColumnsAux, hv] at h
    | ok v =>
      by_cases hp : producesRows v = true
      · have hres := evaluateColumns_cons_producing ev c rest v hv hp
        rw [hres] at h
        have hrows : rows = rowsOf c v := (Except.ok.inj h).symm
        refine ⟨[], c, rest, v, rfl, by simp, hv, hp, hrows, ?_, ?_⟩
        · intro r hr
          exact rowsOf_name c v r (hrows ▸ hr)
        · intro rest2
          rw [List.nil_append,
            evaluateColumns_cons_producing ev c rest2 v hv hp, hrows]
      · have hveq : v = FVal.list [] :=
          (producesRows_false_iff v).1 (by simpa using hp)
        subst hveq
        rw [evaluateColumns_cons_empty_list ev c rest hv] at h
        obtain ⟨pre, c2, rest2, v2, hcols, hpre, hv2, hp2, hrows, hnames,
          hindep⟩ := ih rows h hne
        refine ⟨c :: pre, c2, rest2, v2, by rw [hcols]; rfl, ?_, hv2, hp2,
          hrows, hnames, ?_⟩
        · intro p hpmem
          rcases List.mem_cons.1 hpmem with rfl | hpmem2
          · exact hv
          · exact hpre p hpmem2
        · intro rest3
          rw [List.cons_append,
            evaluateColumns_cons_empty_list ev c (pre ++ c2 :: rest3) hv]
          exact hindep rest3

/-- C10 witness: at the concrete evaluator, the first column's formula
evaluates to the empty array and the second to 99, so the split has the
first column in the prefix and the second as the producing column, with the
single returned row keyed by the second column's name. -/
theorem rows_single_key_witness :
    ∃ pre c rest v,
      [({ name := "a", formula := "e" } : FormulaColumn),
        { name := "b", formula := "n" }] = pre ++ c :: rest ∧
      (∀ p ∈ pre, evConcrete p.formula = Except.ok (FVal.list [])) ∧
      evConcrete c.formula = Except.ok v ∧ producesRows v = true ∧
      [({ name := "b", value := FVal.num 99 } : ResultRow)] = rowsOf c v ∧
      (∀ r ∈ [({ name := "b", value := FVal.num 99 } : ResultRow)],
        r.name = c.name) ∧
      (∀ rest2 : List FormulaColumn,
        evaluateColumns evConcrete (pre ++ c :: rest2) =
          Except.ok [({ name := "b", value := FVal.num 99 } : ResultRow)]) :=
  rows_single_key_from_first_producing evConcrete
    [{ name := "a", formula := "e" }, { name := "b", formula := "n" }]
    [{ name := "b", value := FVal.num 99 }] rfl (by simp)
